import Mathlib

/-!
# Verification of the VanBus packet receiver (`VanBusRx.cpp`)

Shallow embedding of the VAN-bus receiver core: the 15-bit CRC engine
(`_crc`, `CheckCrc`, `CheckCrcAndRepair`), the bit-timing
decoder (`nBitsFromCycles`), the pin-change interrupt frame state machine
(`RxPinChangeIsr`, `WaitAckIsr`) and the circular receive queue
(`Receive`).  Machine integers are modelled as `Nat` with explicit
`% 2^w` reductions at the points where the C code truncates
(`uint16_t` shifts, `uint8_t` shifts, `uint32_t` arithmetic).
Frame buffers are `List Nat`, with the list length playing the role of the
`size` argument that the C functions receive alongside the byte array.
-/

namespace VanBus

/-- The VAN CRC polynomial (`VAN_CRC_POLYNOM` in the source). -/
def VAN_CRC_POLYNOM : Nat := 0x0F9D

/-- Maximum packet size.
Modelled from the spec: `VAN_MAX_PACKET_SIZE` is declared in the header
`VanBusRx.h` (not part of the analyzed source); the spec's data model gives
"capacity = max frame size, e.g. 32 bytes". -/
def VAN_MAX_PACKET_SIZE : Nat := 32

/-- One iteration of the inner loop shared by `_crc` and
`TVanPacketRxDesc::CheckCrc`: state is the pair `(crc16, byte)` where
`crc16` is the 16-bit running register and `byte` the input byte being
consumed most-significant-bit first.  Mirrors lines 25-29 / 86-90 of
`VanBusRx.cpp` (`uint16_t`/`uint8_t` truncation made explicit). -/
def crcStep : Nat × Nat → Nat × Nat
  | (crc16, byte) =>
    let bit := crc16 &&& 0x4000
    let bit := if byte &&& 0x80 ≠ 0 then bit ^^^ 0x4000 else bit
    let byte := (byte <<< 1) % 256
    let crc16 := (crc16 <<< 1) % 65536
    let crc16 := if bit ≠ 0 then crc16 ^^^ VAN_CRC_POLYNOM else crc16
    (crc16, byte)

/-- Iterate `crcStep` over the bit index `j` (the inner `for (int j = 0; j < 8; j++)`). -/
def crcSteps : Nat → Nat × Nat → Nat × Nat
  | 0, p => p
  | j + 1, p => crcSteps j (crcStep p)

/-- Process one full byte of the CRC computation (8 inner iterations). -/
def crcByte (crc16 byte : Nat) : Nat := (crcSteps 8 (crc16, byte)).1

/-- Run the CRC register over a list of bytes (the outer `for` loop body). -/
def crcRun (crc16 : Nat) (bs : List Nat) : Nat := bs.foldl crcByte crc16

/-- The function `_crc(bytes, size)` from `VanBusRx.cpp` lines 15-37: start from
`0x7FFF`, process bytes `1 .. size-3` (skipping the SOF byte and the two
trailing CRC bytes), complement with `^ 0x7FFF`, then shift left one bit
into the 16-bit wire representation. -/
def _crc (bytes : List Nat) : Nat :=
  ((crcRun 0x7FFF ((bytes.drop 1).take (bytes.length - 3))) ^^^ 0x7FFF) <<< 1 % 65536

/-- The method `TVanPacketRxDesc::CheckCrc` from `VanBusRx.cpp` lines 76-98: run the
register from `0x7FFF` over bytes `1 .. size-1` (everything except the SOF
byte, trailing CRC bytes included), mask to 15 bits, compare with `0x19B7`. -/
def CheckCrc (bytes : List Nat) : Bool :=
  (crcRun 0x7FFF (bytes.drop 1)) &&& 0x7FFF == 0x19B7

/-- Flip bit `atBit` of byte `atByte` (the `bytes[atByte] ^= 1 << atBit`
of the repair loop). -/
def flipBit (bytes : List Nat) (atByte atBit : Nat) : List Nat :=
  bytes.set atByte ((bytes.getD atByte 0) ^^^ (1 <<< atBit))

/-- The (byte, bit) positions tried by the repair loop of
`CheckCrcAndRepair`, in its deterministic order: outer loop
`atByte = 0 .. size-1`, inner loop `atBit = 0 .. 7`. -/
def repairPositions (size : Nat) : List (Nat × Nat) :=
  (List.range size).flatMap fun atByte => (List.range 8).map fun atBit => (atByte, atBit)

/-- The method `TVanPacketRxDesc::CheckCrcAndRepair` from `VanBusRx.cpp` lines
102-124, as a pure function on the byte buffer: if the CRC already checks
out, succeed without touching the buffer; otherwise try each single-bit
flip in loop order, keeping the first flip that makes `CheckCrc` pass and
undoing every unsuccessful flip.  Returns the success flag together with
the resulting buffer.  (The `VanBusRx.nCorrupt++` / `nRepaired++` counter
side effects touch the global queue and are modelled separately by
`repairCorruptIncrement` / `repairRepairedIncrement`.) -/
def CheckCrcAndRepair (bytes : List Nat) : Bool × List Nat :=
  if CheckCrc bytes then (true, bytes)
  else
    match (repairPositions bytes.length).find?
        (fun pb => CheckCrc (flipBit bytes pb.1 pb.2)) with
    | some pb => (true, flipBit bytes pb.1 pb.2)
    | none => (false, bytes)

/-- How much `CheckCrcAndRepair` adds to `VanBusRx.nCorrupt`: 1 unless the
buffer already passed verification. -/
def repairCorruptIncrement (bytes : List Nat) : Nat :=
  if CheckCrc bytes then 0 else 1

/-- How much `CheckCrcAndRepair` adds to `VanBusRx.nRepaired`: 1 exactly
when a repairing flip was found. -/
def repairRepairedIncrement (bytes : List Nat) : Nat :=
  if CheckCrc bytes then 0
  else if ((repairPositions bytes.length).find?
      (fun pb => CheckCrc (flipBit bytes pb.1 pb.2))).isSome then 1 else 0

/-- A buffer whose trailing two bytes hold the CRC computed by `_crc`
over the rest of the frame, transmitted high byte first.  (`_crc`
ignores the final two bytes, so applying it to the whole framed buffer is
well-defined.) -/
def ValidCrcBuffer (bytes : List Nat) : Prop :=
  3 ≤ bytes.length ∧
  bytes = bytes.take (bytes.length - 2) ++ [_crc bytes >>> 8, _crc bytes % 256]

/-- The method `TVanPacketRxDesc::DataLen` (lines 62-67): total size minus SOF, IDEN,
COM and CRC+EOD bytes, computed in plain `int` arithmetic without
clamping. -/
def DataLen (size : Nat) : Int := (size : Int) - 5

/-- The payload-length expression printed by `TVanPacketRxDesc::DumpRaw`
(line 135): `size - 5 < 0 ? 0 : size - 5`. -/
def dumpRawDataLen (size : Nat) : Int :=
  if (size : Int) - 5 < 0 then 0 else (size : Int) - 5

/-- The function `nBitsFromCycles(nCycles, jitter)` from `VanBusRx.cpp` lines 228-298,
with the carried `jitter` made an explicit argument and the updated
jitter returned alongside the bit count.  `f` is `CPU_F_FACTOR`, the
processor-clock scaling ratio defined in the header (not part of the
analyzed source; 1 at the 80 MHz calibration clock).  All quantities are
`uint32_t` in the source, hence the `% 2^32` on the entry addition. -/
def nBitsFromCycles (f nCyclesIn jitterIn : Nat) : Nat × Nat :=
  let nCycles := (nCyclesIn + jitterIn) % 4294967296
  if nCycles < 1124 * f then
    (1, if nCycles > 800 * f then nCycles - 800 * f else 0)
  else if nCycles < 1744 * f then
    (2, if nCycles > 1380 * f then nCycles - 1380 * f else 0)
  else if nCycles < 2383 * f then
    (3, if nCycles > 2100 * f then nCycles - 2100 * f else 0)
  else if nCycles < 3045 * f then
    (4, if nCycles > 2655 * f then nCycles - 2655 * f else 0)
  else if nCycles < 3665 * f then
    (5, if nCycles > 3300 * f then nCycles - 3300 * f else 0)
  else
    ((((nCycles + 300 * f) % 4294967296) / 650 * f) % 4294967296, 0)

/-! ## Spec-side CRC definitions

The following definitions follow the words of the specification (§4.1),
for comparison against the embedded source functions above: a 15-bit
register, polynomial value `0x0F9D`, initial register `0x7FFF`, each byte
processed most-significant-bit first, XOR-ing the polynomial into the
shifted register whenever the shifted-out bit and the current input bit
disagree. -/

/-- One bit of the spec's 15-bit CRC: shift the register left (keeping 15
bits), XOR in the polynomial when the shifted-out bit disagrees with the
input bit. -/
def specCrcStep (reg : Nat) (b : Bool) : Nat :=
  let out := reg.testBit 14
  let reg := (reg <<< 1) % 32768
  if out != b then reg ^^^ VAN_CRC_POLYNOM else reg

/-- One byte of the spec's 15-bit CRC, most-significant-bit first. -/
def specCrcByte (reg byte : Nat) : Nat :=
  specCrcStep (specCrcStep (specCrcStep (specCrcStep (specCrcStep (specCrcStep
    (specCrcStep (specCrcStep reg (byte.testBit 7)) (byte.testBit 6))
    (byte.testBit 5)) (byte.testBit 4)) (byte.testBit 3)) (byte.testBit 2))
    (byte.testBit 1)) (byte.testBit 0)

/-- The spec's 15-bit CRC register run over a byte list. -/
def specCrcRun (reg : Nat) (bs : List Nat) : Nat := bs.foldl specCrcByte reg

/-- The compute variant exactly as claim C3 words it: the 15-bit CRC
register over bytes `1 .. size-3`, "with, as the only final step, a left
shift by one bit" (no complement step). -/
def specClaimComputeCrc (bytes : List Nat) : Nat :=
  (specCrcRun 0x7FFF ((bytes.drop 1).take (bytes.length - 3))) <<< 1 % 65536

/-- The verify variant exactly as claim C5 words it: the 15-bit CRC
register run over "the entire frame including the trailing CRC bytes",
valid iff the final register equals `0x19B7`. -/
def specVerifyEntireFrame (bytes : List Nat) : Bool :=
  specCrcRun 0x7FFF bytes == 0x19B7

/-! ## Auxiliary CRC notions used by the round-trip proof -/

/-- The 16-bit wire representation `_crc` derives from a final register
value `r`: complement with `0x7FFF`, shift left one bit. -/
def vWire (r : Nat) : Nat := ((r ^^^ 0x7FFF) <<< 1) % 65536

/-- Register obtained by starting `CheckCrc`'s loop in register `r` right
at the two trailing CRC bytes that `_crc` would emit for `r`. -/
def gRun (r : Nat) : Nat := crcRun r [vWire r >>> 8, vWire r % 256]

/-- A list of `n` bytes that is zero except for value `v` at index `i`. -/
def oneHot (n i v : Nat) : List Nat :=
  List.replicate i 0 ++ v :: List.replicate (n - i - 1) 0

/-- Syndrome of a single-bit error: the XOR-difference that flipping bit
`b` of a byte followed by `c` further bytes contributes to the final CRC
register. -/
def synd (b c : Nat) : Nat := crcRun (crcByte 0 (1 <<< b)) (List.replicate c 0)

/-! ## Frame state machine and circular receive queue

The pin-change ISR (`RxPinChangeIsr`, lines 326-547), the
acknowledgement-timeout ISR (`WaitAckIsr`, lines 316-323) and the
consumer-side `TVanPacketRxQueue::Receive` (lines 152-178) are embedded
as transition functions on an explicit state record.  The `static` locals
of the ISR (`prevPinLevelChangedTo`, `prev`, `jitter`, `atBit`,
`readBits`) and the global `VanBusRx` queue singleton are fields of that
record.  Hardware interaction (the pin read and the cycle counter) comes
in as arguments of the transition; the hardware timer is reduced to an
armed/disarmed flag. -/

/-- Logical pin levels.
Modelled from the spec: the numeric constants `VAN_LOGICAL_LOW`,
`VAN_LOGICAL_HIGH` and `VAN_BIT_RECESSIVE` are defined in the header
`VanBusRx.h` (not part of the analyzed source); the spec's glossary fixes
dominant = driven-low and recessive = idle-high, and the receiver starts
a frame on the transition to the dominant/low level. -/
inductive PinLevel
  | low
  | high
deriving DecidableEq, Repr

/-- The pin level that starts a frame when in `VACANT` state. -/
def VAN_LOGICAL_LOW : PinLevel := .low

/-- The idle bus level; initial value of `prevPinLevelChangedTo`. -/
def VAN_BIT_RECESSIVE : PinLevel := .high

/-- Decode states of one packet descriptor (spec §3 / §4.2). -/
inductive PacketReadState
  | vacant
  | searching
  | loading
  | waitingAck
  | done
deriving DecidableEq, Repr

/-- Whether a bus acknowledgement bit was observed after end-of-data. -/
inductive PacketAck
  | vanAck
  | vanNoAck
deriving DecidableEq, Repr

/-- Decode outcome of one frame (spec §3). -/
inductive PacketResult
  | vanRxPacketOk
  | vanRxErrorNBits
  | vanRxErrorMaxPacket
  | vanRxErrorManchester
deriving DecidableEq, Repr

/-- One packet descriptor (`TVanPacketRxDesc`).  The fixed `uint8_t
bytes[VAN_MAX_PACKET_SIZE]` array is a length-32 list written in place
with `List.set`. -/
structure TVanPacketRxDesc where
  bytes : List Nat := List.replicate VAN_MAX_PACKET_SIZE 0
  size : Nat := 0
  state : PacketReadState := .vacant
  ack : PacketAck := .vanNoAck
  result : PacketResult := .vanRxPacketOk
  seqNo : Nat := 0
  slot : Nat := 0
deriving DecidableEq, Repr

/-- The global receiver: the `VanBusRx` queue singleton (pool of
descriptors, head/tail indices, latched overrun flag, statistics
counters, media-access timestamp), the ISR's `static` locals and the
state of the one-shot acknowledgement timer. -/
structure TVanBus where
  pool : List TVanPacketRxDesc
  head : Nat := 0
  tail : Nat := 0
  _overrun : Bool := false
  nCorrupt : Nat := 0
  nRepaired : Nat := 0
  lastMediaAccessAt : Nat := 0
  ackTimerArmed : Bool := false
  prevPinLevelChangedTo : PinLevel := VAN_BIT_RECESSIVE
  prev : Nat := 0
  jitter : Nat := 0
  atBit : Nat := 0
  readBits : Nat := 0
deriving DecidableEq, Repr

/-- Rewrite the head descriptor through `f`, leaving the rest of the pool
untouched. -/
def modifyHead (s : TVanBus) (f : TVanPacketRxDesc → TVanPacketRxDesc) : TVanBus :=
  { s with pool := s.pool.set s.head (f (s.pool.getD s.head {})) }

/-- The method `TVanPacketRxQueue::_AdvanceHead`.
Modelled from the spec: the body lives in the header `VanBusRx.h` (not
part of the analyzed source); spec §4.2 gives "marks current slot DONE,
promotes next pool slot to become the new producer target". -/
def _AdvanceHead (s : TVanBus) : TVanBus :=
  let s := modifyHead s fun d => { d with state := .done }
  { s with head := (s.head + 1) % s.pool.length }

/-- The function `SetTxBitTimer` (lines 300-314): disables the running timer and, when
a transmit timer ISR is registered, re-arms it for transmission.  Only
the effect on the acknowledgement timeout is modelled (the timer hardware
is an external collaborator per spec §1/§6). -/
def SetTxBitTimer (s : TVanBus) : TVanBus :=
  { s with ackTimerArmed := false }

/-- The function `WaitAckIsr` (lines 316-323): the acknowledgement-window timeout.
Turns the timer over to the transmitter and advances the queue head. -/
def WaitAckIsr (s : TVanBus) : TVanBus :=
  _AdvanceHead (SetTxBitTimer s)

/-- The `uint32_t` cycle delta `curr - prev` ("arithmetic has safe
roll-over", line 348). -/
def isrNCycles (prev curr : Nat) : Nat :=
  (curr % 4294967296 + 4294967296 - prev % 4294967296) % 4294967296

/-- The bookkeeping writes `RxPinChangeIsr` performs on every
non-spurious edge, before dispatching on the decode state (lines
339-356): record the new pin level, the media-access timestamp when the
level changed to recessive, the edge timestamp `prev`, the consumed
jitter, and the head descriptor's `slot` index.  The values the later
branches read (`pool`, `head`, `atBit`, `readBits`) are not touched. -/
def isrBookkeeping (s : TVanBus) (pinLevelChangedTo : PinLevel) (curr jitterNew : Nat) :
    TVanBus :=
  modifyHead
    { s with
      prevPinLevelChangedTo := pinLevelChangedTo,
      lastMediaAccessAt :=
        if pinLevelChangedTo = VAN_BIT_RECESSIVE then curr else s.lastMediaAccessAt,
      prev := curr,
      jitter := jitterNew }
    fun d => { d with slot := s.head }

/-- The `VAN_RX_VACANT` branch (lines 390-405): a transition to the
dominant/low level starts the search for a frame, resetting the
accumulated bit state. -/
def isrVacant (s0 : TVanBus) (pinLevelChangedTo : PinLevel) : TVanBus :=
  if pinLevelChangedTo = VAN_LOGICAL_LOW then
    { modifyHead s0 fun d => { d with state := .searching, ack := .vanNoAck, size := 0 } with
      atBit := 0, readBits := 0 }
  else s0

/-- The `VAN_RX_WAITING_ACK` branch (lines 407-415): the next observed
bit is the acknowledgement; the head is *not* advanced here ("the timer
ISR 'WaitAckIsr' will do this"). -/
def isrWaitingAck (s0 : TVanBus) : TVanBus :=
  modifyHead s0 fun d => { d with ack := .vanAck }

/-- The queue-full branch (lines 417-423): the head descriptor is already
`VAN_RX_DONE`; only the latched overrun flag is set. -/
def isrOverrun (s0 : TVanBus) : TVanBus :=
  { s0 with _overrun := true }

/-- The over-long bit-run branch (lines 429-444): more than 9 equal bits
restarts the search when still `VAN_RX_SEARCHING`, and otherwise
force-completes the frame with `VAN_RX_ERROR_NBITS`. -/
def isrNBitsError (s0 : TVanBus) (state : PacketReadState) : TVanBus :=
  if state = .searching then
    { modifyHead s0 fun d => { d with size := 0 } with atBit := 0, readBits := 0 }
  else
    _AdvanceHead (modifyHead s0 fun d => { d with result := .vanRxErrorNBits })

/-- The bit-accumulation tail of the ISR (lines 446-543): optional
Manchester-bit "eating", appending the run to `readBits`, and — once 10
bits are assembled — SOF detection, byte extraction, EOD detection with
the acknowledgement timeout, and the maximum-packet-size check. -/
def isrAccumulate (s0 : TVanBus) (state : PacketReadState) (pinLevelChangedTo : PinLevel)
    (nBits0 jitterIn : Nat) : TVanBus :=
  let eatManchester := nBits0 > 1 ∧ s0.atBit + nBits0 = 5
  let nBits := if eatManchester then nBits0 - 1 else nBits0
  let jitter1 := if eatManchester then 500 else jitterIn
  let atBit1 := s0.atBit + nBits
  let pattern := if pinLevelChangedTo = VAN_LOGICAL_LOW then (1 <<< nBits) - 1 else 0
  let readBits1 := ((s0.readBits <<< nBits) % 65536) ||| pattern
  let s1 := { s0 with jitter := jitter1, atBit := atBit1, readBits := readBits1 }
  if atBit1 ≥ 10 then
    let atBit2 := atBit1 - 10
    let currentByte := readBits1 >>> atBit2
    let s2 := { s1 with atBit := atBit2 }
    if state = .searching ∧ currentByte ≠ 0x03D then
      modifyHead s2 fun d => { d with state := .vacant }
    else
      let s3 := if state = .searching then
          modifyHead s2 fun d => { d with state := .loading } else s2
      let s3 := { s3 with readBits := readBits1 &&& ((1 <<< atBit2) - 1) }
      let readByte := (currentByte >>> 2 &&& 0xF0) ||| (currentByte >>> 1 &&& 0x0F)
      let s3 := modifyHead s3 fun d =>
        { d with bytes := d.bytes.set d.size readByte, size := d.size + 1 }
      if currentByte &&& 0x003 = 0 then
        { modifyHead s3 fun d => { d with state := .waitingAck } with ackTimerArmed := true }
      else if (s3.pool.getD s3.head {}).size ≥ VAN_MAX_PACKET_SIZE then
        _AdvanceHead (modifyHead s3 fun d => { d with result := .vanRxErrorMaxPacket })
      else s3
  else s1

/-- The function `RxPinChangeIsr` (lines 326-547), as a transition on `TVanBus`.
`pinLevelChangedTo` is the `GPIP(VanBusRx.pin)` read and `curr` the
`ESP.getCycleCount()` read at entry; `f` is `CPU_F_FACTOR`.  The
`VAN_RX_ISR_DEBUGGING` instrumentation is compiled out in the analyzed
configuration and not modelled. -/
def RxPinChangeIsr (f : Nat) (s : TVanBus) (pinLevelChangedTo : PinLevel) (curr : Nat) :
    TVanBus :=
  if pinLevelChangedTo = s.prevPinLevelChangedTo then s
  else
    let nj := nBitsFromCycles f (isrNCycles s.prev curr) s.jitter
    let state := (s.pool.getD s.head {}).state
    let s0 := isrBookkeeping s pinLevelChangedTo curr nj.2
    if state = .vacant then isrVacant s0 pinLevelChangedTo
    else if state = .waitingAck then isrWaitingAck s0
    else if state ≠ .searching ∧ state ≠ .loading then isrOverrun s0
    else if nj.1 > 9 then isrNBitsError s0 state
    else isrAccumulate s0 state pinLevelChangedTo nj.1 nj.2

/-- The method `TVanPacketRxQueue::Available`.
Modelled from the spec: declared in the header (not part of the analyzed
source); spec §4.3 gives "`available() -> bool`: true iff the slot at
tail is DONE". -/
def Available (s : TVanBus) : Bool :=
  (s.pool.getD s.tail {}).state == .done

/-- The method `TVanPacketRxQueue::IsQueueOverrun`.
Modelled from the spec: declared in the header; returns the latched
overrun flag. -/
def IsQueueOverrun (s : TVanBus) : Bool := s._overrun

/-- The method `TVanPacketRxQueue::ClearQueueOverrun`.
Modelled from the spec: declared in the header; clears the latched
overrun flag ("sticky until explicitly queried and cleared by a consumer
call", spec §4.3). -/
def ClearQueueOverrun (s : TVanBus) : TVanBus := { s with _overrun := false }

/-- The method `TVanPacketRxDesc::Init`.
Modelled from the spec: declared in the header; spec §4.3 gives "resets
the drained slot to VACANT". -/
def descInit (d : TVanPacketRxDesc) : TVanPacketRxDesc := { d with state := .vacant }

/-- The method `TVanPacketRxQueue::AdvanceTail`.
Modelled from the spec: declared in the header; advances the consumer
index forward, wrapping modulo the pool capacity. -/
def AdvanceTail (s : TVanBus) : TVanBus := { s with tail := (s.tail + 1) % s.pool.length }

/-- The method `TVanPacketRxQueue::Receive` (lines 152-178).  `pkt` is the caller's
in-out packet buffer; `isQueueOverrunPtr` models whether the caller
passed a non-null `bool* isQueueOverrun`, and `isQueueOverrunOut` the
value behind that pointer.  Returns
`(result, pkt, *isQueueOverrun, queue)` after the call. -/
def Receive (s : TVanBus) (pkt : TVanPacketRxDesc)
    (isQueueOverrunPtr isQueueOverrunOut : Bool) :
    Bool × TVanPacketRxDesc × Bool × TVanBus :=
  if Available s then
    let pkt := s.pool.getD s.tail {}
    let isQueueOverrunOut := if isQueueOverrunPtr then IsQueueOverrun s else isQueueOverrunOut
    let s1 := if isQueueOverrunPtr then ClearQueueOverrun s else s
    let s2 := { s1 with pool := s1.pool.set s1.tail (descInit (s1.pool.getD s1.tail {})) }
    (true, pkt, isQueueOverrunOut, AdvanceTail s2)
  else (false, pkt, isQueueOverrunOut, s)

/-- Auxiliary recursion mirroring `crcSteps` on the spec side: the state
is the 15-bit register together with the remaining (left-shifting) input
byte. -/
def specStepsAux : Nat → Nat × Nat → Nat
  | 0, p => p.1
  | j + 1, p => specStepsAux j (specCrcStep p.1 (p.2.testBit 7), (p.2 <<< 1) % 256)

/-! ## Bitwise toolbox -/

lemma xor_mod_two_pow (a b k : Nat) : (a ^^^ b) % 2 ^ k = a % 2 ^ k ^^^ b % 2 ^ k := by
  rw [← Nat.and_pow_two_sub_one_eq_mod, ← Nat.and_pow_two_sub_one_eq_mod,
    ← Nat.and_pow_two_sub_one_eq_mod, Nat.and_xor_distrib_right]

lemma xor_mod_65536 (a b : Nat) : (a ^^^ b) % 65536 = a % 65536 ^^^ b % 65536 := by
  have h := xor_mod_two_pow a b 16
  norm_num at h
  exact h

lemma xor_mod_32768 (a b : Nat) : (a ^^^ b) % 32768 = a % 32768 ^^^ b % 32768 := by
  have h := xor_mod_two_pow a b 15
  norm_num at h
  exact h

lemma xor_mod_256 (a b : Nat) : (a ^^^ b) % 256 = a % 256 ^^^ b % 256 := by
  have h := xor_mod_two_pow a b 8
  norm_num at h
  exact h

lemma xor_shiftLeft (a b i : Nat) : (a ^^^ b) <<< i = a <<< i ^^^ b <<< i := by
  apply Nat.eq_of_testBit_eq
  intro j
  simp only [Nat.testBit_shiftLeft, Nat.testBit_xor]
  cases h : decide (j ≥ i) <;> simp

lemma xor_shiftRight (a b i : Nat) : (a ^^^ b) >>> i = a >>> i ^^^ b >>> i := by
  apply Nat.eq_of_testBit_eq
  intro j
  simp [Nat.testBit_shiftRight, Nat.testBit_xor]

lemma xor_left_comm (a b c : Nat) : a ^^^ (b ^^^ c) = b ^^^ (a ^^^ c) := by
  rw [← Nat.xor_assoc, ← Nat.xor_assoc, Nat.xor_comm a b]

lemma xor_cancel_left (a b : Nat) : a ^^^ (a ^^^ b) = b := by
  rw [← Nat.xor_assoc, Nat.xor_self, Nat.zero_xor]

lemma and_16384 (c : Nat) : c &&& 16384 = if c.testBit 14 then 16384 else 0 := by
  have h := Nat.and_two_pow c 14
  norm_num at h
  rw [h]
  cases c.testBit 14 <;> simp

lemma and_128 (c : Nat) : c &&& 128 = if c.testBit 7 then 128 else 0 := by
  have h := Nat.and_two_pow c 7
  norm_num at h
  rw [h]
  cases c.testBit 7 <;> simp

/-! ## The CRC step in normal form, and its GF(2)-linearity -/

lemma crcStep_fst (c y : Nat) :
    (crcStep (c, y)).1 = (c <<< 1) % 65536 ^^^
      (if c.testBit 14 ^^ y.testBit 7 then VAN_CRC_POLYNOM else 0) := by
  show (let bit := c &&& 0x4000
        let bit := if y &&& 0x80 ≠ 0 then bit ^^^ 0x4000 else bit
        let byte := (y <<< 1) % 256
        let crc16 := (c <<< 1) % 65536
        let crc16 := if bit ≠ 0 then crc16 ^^^ VAN_CRC_POLYNOM else crc16
        (crc16, byte)).1 = _
  simp only [and_16384, and_128]
  cases h1 : c.testBit 14 <;> cases h2 : y.testBit 7 <;>
    simp [h1, h2, VAN_CRC_POLYNOM]

lemma crcStep_snd (c y : Nat) : (crcStep (c, y)).2 = (y <<< 1) % 256 := rfl

lemma ite_xor_poly (a b : Bool) (P : Nat) :
    (if a ^^ b then P else 0) = (if a then P else 0) ^^^ (if b then P else 0) := by
  cases a <;> cases b <;> simp

lemma crcStep_fst_xor (a b c d : Nat) :
    (crcStep (a ^^^ c, b ^^^ d)).1 = (crcStep (a, b)).1 ^^^ (crcStep (c, d)).1 := by
  simp only [crcStep_fst, Nat.testBit_xor]
  rw [xor_shiftLeft, xor_mod_65536]
  cases h1 : a.testBit 14 <;> cases h2 : b.testBit 7 <;>
    cases h3 : c.testBit 14 <;> cases h4 : d.testBit 7 <;>
      simp [Nat.xor_assoc, Nat.xor_comm, xor_left_comm, xor_cancel_left]

lemma crcStep_snd_xor (a b c d : Nat) :
    (crcStep (a ^^^ c, b ^^^ d)).2 = (crcStep (a, b)).2 ^^^ (crcStep (c, d)).2 := by
  simp only [crcStep_snd]
  rw [xor_shiftLeft, xor_mod_256]

lemma crcSteps_xor (j : Nat) :
    ∀ a b c d : Nat,
      crcSteps j (a ^^^ c, b ^^^ d) =
        ((crcSteps j (a, b)).1 ^^^ (crcSteps j (c, d)).1,
         (crcSteps j (a, b)).2 ^^^ (crcSteps j (c, d)).2) := by
  induction j with
  | zero => intro a b c d; rfl
  | succ n ih =>
    intro a b c d
    show crcSteps n (crcStep (a ^^^ c, b ^^^ d)) = _
    have hstep : crcStep (a ^^^ c, b ^^^ d) =
        ((crcStep (a, b)).1 ^^^ (crcStep (c, d)).1,
         (crcStep (a, b)).2 ^^^ (crcStep (c, d)).2) := by
      rw [← crcStep_fst_xor, ← crcStep_snd_xor]
    rw [hstep, ih]
    show _ = (((crcSteps n (crcStep (a, b))).1 ^^^ (crcSteps n (crcStep (c, d))).1),
              ((crcSteps n (crcStep (a, b))).2 ^^^ (crcSteps n (crcStep (c, d))).2))
    rw [← Prod.mk.eta (p := crcStep (a, b)), ← Prod.mk.eta (p := crcStep (c, d))]

lemma crcByte_xor (a b c d : Nat) :
    crcByte (a ^^^ c) (b ^^^ d) = crcByte a b ^^^ crcByte c d := by
  show (crcSteps 8 (a ^^^ c, b ^^^ d)).1 = _
  rw [crcSteps_xor]
  rfl

lemma crcRun_xor :
    ∀ (bs cs : List Nat) (s t : Nat), bs.length = cs.length →
      crcRun (s ^^^ t) (List.zipWith HXor.hXor bs cs) = crcRun s bs ^^^ crcRun t cs := by
  intro bs
  induction bs with
  | nil =>
    intro cs s t h
    cases cs with
    | nil => rfl
    | cons c cs => simp at h
  | cons b bs ih =>
    intro cs s t h
    cases cs with
    | nil => simp at h
    | cons c cs =>
      show crcRun (crcByte (s ^^^ t) (b ^^^ c)) (List.zipWith HXor.hXor bs cs) = _
      rw [crcByte_xor]
      exact ih cs _ _ (by simpa using h)

/-! ## Range of the CRC register -/

lemma lt_65536_xor {a b : Nat} (ha : a < 65536) (hb : b < 65536) : a ^^^ b < 65536 := by
  have h : (2 : Nat) ^ 16 = 65536 := by norm_num
  rw [← h] at ha hb ⊢
  exact Nat.xor_lt_two_pow ha hb

lemma crcStep_fst_lt (p : Nat × Nat) : (crcStep p).1 < 65536 := by
  obtain ⟨c, y⟩ := p
  rw [crcStep_fst]
  apply lt_65536_xor (Nat.mod_lt _ (by norm_num))
  split <;> norm_num [VAN_CRC_POLYNOM]

lemma crcSteps_fst_lt (j : Nat) : ∀ p : Nat × Nat, p.1 < 65536 → (crcSteps j p).1 < 65536 := by
  induction j with
  | zero => intro p h; exact h
  | succ n ih => intro p h; exact ih (crcStep p) (crcStep_fst_lt p)

lemma crcByte_lt (c y : Nat) : crcByte c y < 65536 := by
  show (crcSteps 8 (c, y)).1 < 65536
  show (crcSteps 7 (crcStep (c, y))).1 < 65536
  exact crcSteps_fst_lt 7 _ (crcStep_fst_lt _)

lemma crcRun_lt (bs : List Nat) : ∀ s : Nat, s < 65536 → crcRun s bs < 65536 := by
  induction bs with
  | nil => intro s h; exact h
  | cons b l ih => intro s _; exact ih (crcByte s b) (crcByte_lt s b)

/-! ## Zero bytes leave a zero register; single-bit error vectors -/

lemma crcByte_zero : crcByte 0 0 = 0 := by decide

lemma crcRun_replicate_zero (k : Nat) : crcRun 0 (List.replicate k 0) = 0 := by
  induction k with
  | zero => rfl
  | succ n ih =>
    rw [List.replicate_succ]
    show crcRun (crcByte 0 0) (List.replicate n 0) = 0
    rw [crcByte_zero]
    exact ih

lemma zipWith_xor_replicate_zero (l : List Nat) :
    List.zipWith HXor.hXor l (List.replicate l.length 0) = l := by
  induction l with
  | nil => rfl
  | cons x xs ih => simp [List.replicate_succ, ih]

lemma oneHot_length (n i v : Nat) (h : i < n) : (oneHot n i v).length = n := by
  simp only [oneHot, List.length_append, List.length_replicate, List.length_cons]
  omega

lemma flipBit_eq_zipWith (l : List Nat) :
    ∀ p : Nat, p < l.length → ∀ b : Nat,
      flipBit l p b = List.zipWith HXor.hXor l (oneHot l.length p (1 <<< b)) := by
  induction l with
  | nil => intro p hp; simp at hp
  | cons x xs ih =>
    intro p hp b
    cases p with
    | zero =>
      show (x :: xs).set 0 (((x :: xs).getD 0 0) ^^^ (1 <<< b)) = _
      simp only [oneHot, List.replicate, List.nil_append, List.length_cons,
        Nat.add_sub_cancel, Nat.sub_zero, List.zipWith_cons_cons, List.set_cons_zero,
        List.getD_cons_zero]
      rw [zipWith_xor_replicate_zero]
    | succ q =>
      have hq : q < xs.length := by simpa using hp
      show (x :: xs).set (q + 1) (((x :: xs).getD (q + 1) 0) ^^^ (1 <<< b)) = _
      simp only [oneHot, List.length_cons, List.replicate_succ, List.cons_append,
        List.zipWith_cons_cons, List.set_cons_succ, List.getD_cons_succ, Nat.xor_zero,
        Nat.succ_sub_succ]
      rw [← oneHot, ← flipBit, ih q hq b]

lemma crcRun_zero_oneHot (n i v : Nat) :
    crcRun 0 (oneHot n i v) = crcRun (crcByte 0 v) (List.replicate (n - i - 1) 0) := by
  show List.foldl crcByte 0 (List.replicate i 0 ++ v :: List.replicate (n - i - 1) 0) = _
  rw [List.foldl_append]
  show crcRun (crcByte (crcRun 0 (List.replicate i 0)) v) (List.replicate (n - i - 1) 0) = _
  rw [crcRun_replicate_zero]

/-- Flipping bit `b` of byte `p ≥ 1` XORs the corresponding single-bit
syndrome into the register `CheckCrc` computes. -/
lemma crcRun_flip (l : List Nat) (p b : Nat) (hp : 1 ≤ p) (hpl : p < l.length) :
    crcRun 0x7FFF ((flipBit l p b).drop 1) =
      crcRun 0x7FFF (l.drop 1) ^^^ synd b (l.length - p - 1) := by
  rw [flipBit_eq_zipWith l p hpl b, List.drop_zipWith]
  have hdrop : (oneHot l.length p (1 <<< b)).drop 1 =
      oneHot (l.length - 1) (p - 1) (1 <<< b) := by
    obtain ⟨q, rfl⟩ : ∃ q, p = q + 1 := ⟨p - 1, by omega⟩
    simp only [oneHot, List.replicate_succ, List.cons_append, List.drop_succ_cons,
      List.drop_zero, Nat.succ_sub_succ]
    have : l.length - (q + 1) - 1 = l.length - 1 - q - 1 := by omega
    rw [this]
    simp
  rw [hdrop]
  have hlen : (l.drop 1).length = (oneHot (l.length - 1) (p - 1) (1 <<< b)).length := by
    rw [oneHot_length _ _ _ (by omega), List.length_drop]
  have h := crcRun_xor (l.drop 1) (oneHot (l.length - 1) (p - 1) (1 <<< b)) 0x7FFF 0 hlen
  rw [Nat.xor_zero] at h
  rw [h, crcRun_zero_oneHot]
  have : l.length - 1 - (p - 1) - 1 = l.length - p - 1 := by omega
  rw [this]
  rfl

/-- Flipping a bit of byte 0 does not change the register `CheckCrc`
computes (the loop starts at byte 1). -/
lemma checkCrc_flip_byte0 (l : List Nat) (b : Nat) :
    CheckCrc (flipBit l 0 b) = CheckCrc l := by
  cases l with
  | nil => rfl
  | cons x xs => rfl

/-! ## The 248 single-bit syndromes are nonzero and pairwise distinct -/

set_option maxRecDepth 40000 in
lemma synd_masked_ne_zero : ∀ k, k < 248 → synd (k % 8) (k / 8) &&& 0x7FFF ≠ 0 := by decide

set_option maxRecDepth 40000 in
lemma synd_table_nodup :
    ((List.range 248).map fun k => synd (k % 8) (k / 8) &&& 0x7FFF).Nodup := by decide

lemma synd_masked_inj {k1 k2 : Nat} (h1 : k1 < 248) (h2 : k2 < 248) (hne : k1 ≠ k2) :
    synd (k1 % 8) (k1 / 8) &&& 0x7FFF ≠ synd (k2 % 8) (k2 / 8) &&& 0x7FFF := by
  intro heq
  have hlen : ((List.range 248).map fun k => synd (k % 8) (k / 8) &&& 0x7FFF).length = 248 := by
    simp
  have hget : ((List.range 248).map fun k => synd (k % 8) (k / 8) &&& 0x7FFF).get
      ⟨k1, by omega⟩ =
      ((List.range 248).map fun k => synd (k % 8) (k / 8) &&& 0x7FFF).get ⟨k2, by omega⟩ := by
    simp only [List.get_eq_getElem, List.getElem_map, List.getElem_range]
    exact heq
  have := (synd_table_nodup.get_inj_iff).mp hget
  exact hne (by simpa using congrArg Fin.val this)

lemma synd_masked_ne_zero' (b c : Nat) (hb : b < 8) (hc : c < 31) :
    synd b c &&& 0x7FFF ≠ 0 := by
  have h := synd_masked_ne_zero (c * 8 + b) (by omega)
  have e1 : (c * 8 + b) % 8 = b := by omega
  have e2 : (c * 8 + b) / 8 = c := by omega
  rwa [e1, e2] at h

lemma synd_masked_inj' {b1 c1 b2 c2 : Nat} (hb1 : b1 < 8) (hc1 : c1 < 31)
    (hb2 : b2 < 8) (hc2 : c2 < 31) (hne : ¬(b1 = b2 ∧ c1 = c2)) :
    synd b1 c1 &&& 0x7FFF ≠ synd b2 c2 &&& 0x7FFF := by
  have h := @synd_masked_inj (c1 * 8 + b1) (c2 * 8 + b2)
    (by omega) (by omega) (by omega)
  have e1 : (c1 * 8 + b1) % 8 = b1 := by omega
  have e2 : (c1 * 8 + b1) / 8 = c1 := by omega
  have e3 : (c2 * 8 + b2) % 8 = b2 := by omega
  have e4 : (c2 * 8 + b2) / 8 = c2 := by omega
  rwa [e1, e2, e3, e4] at h

/-! ## Appending the two wire CRC bytes always lands on `0x19B7`

`gRun r` feeds the two CRC bytes `_crc` would emit for register value `r`
back into the register.  It is an affine function of `r` over GF(2), so
checking it on `0` and the 16 basis vectors settles it for every 16-bit
register value. -/

lemma vWire_xor (x y : Nat) : vWire (x ^^^ y) = vWire x ^^^ (vWire y ^^^ vWire 0) := by
  show ((x ^^^ y) ^^^ 0x7FFF) <<< 1 % 65536 = _
  have h : (x ^^^ y) ^^^ 0x7FFF = (x ^^^ 0x7FFF) ^^^ ((y ^^^ 0x7FFF) ^^^ (0 ^^^ 0x7FFF)) := by
    simp only [Nat.zero_xor]
    simp [Nat.xor_assoc, Nat.xor_comm, xor_left_comm, xor_cancel_left, Nat.xor_self]
  rw [h, xor_shiftLeft (x ^^^ 0x7FFF) ((y ^^^ 0x7FFF) ^^^ (0 ^^^ 0x7FFF)) 1,
    xor_mod_65536 ((x ^^^ 0x7FFF) <<< 1) (((y ^^^ 0x7FFF) ^^^ (0 ^^^ 0x7FFF)) <<< 1),
    xor_shiftLeft (y ^^^ 0x7FFF) (0 ^^^ 0x7FFF) 1,
    xor_mod_65536 ((y ^^^ 0x7FFF) <<< 1) ((0 ^^^ 0x7FFF) <<< 1)]
  rfl

lemma gRun_xor (x y : Nat) : gRun (x ^^^ y) = gRun x ^^^ (gRun y ^^^ gRun 0) := by
  have hc1 : vWire (x ^^^ y) >>> 8 =
      vWire x >>> 8 ^^^ (vWire y >>> 8 ^^^ vWire 0 >>> 8) := by
    rw [vWire_xor, xor_shiftRight, xor_shiftRight]
  have hc2 : vWire (x ^^^ y) % 256 =
      vWire x % 256 ^^^ (vWire y % 256 ^^^ vWire 0 % 256) := by
    rw [vWire_xor, xor_mod_256, xor_mod_256]
  have e0 : x ^^^ y = x ^^^ (y ^^^ 0) := by rw [Nat.xor_zero]
  show crcRun (x ^^^ y) [vWire (x ^^^ y) >>> 8, vWire (x ^^^ y) % 256] = _
  rw [hc1, hc2, e0]
  have hz : [vWire x >>> 8 ^^^ (vWire y >>> 8 ^^^ vWire 0 >>> 8),
             vWire x % 256 ^^^ (vWire y % 256 ^^^ vWire 0 % 256)] =
      List.zipWith HXor.hXor [vWire x >>> 8, vWire x % 256]
        (List.zipWith HXor.hXor [vWire y >>> 8, vWire y % 256]
          [vWire 0 >>> 8, vWire 0 % 256]) := rfl
  rw [hz, crcRun_xor _ _ x (y ^^^ 0) (by simp), crcRun_xor _ _ y 0 (by simp)]
  rfl

set_option maxRecDepth 40000 in
lemma gRun_masked_basis : ∀ i, i < 16 → gRun (2 ^ i) &&& 0x7FFF = 0x19B7 := by decide

lemma gRun_masked_zero : gRun 0 &&& 0x7FFF = 0x19B7 := by decide

lemma two_pow_xor_of_lt {n s : Nat} (h : s < 2 ^ n) : 2 ^ n ^^^ s = 2 ^ n + s := by
  have hor : 2 ^ n + s = 2 ^ n ||| s := by
    have h1 := Nat.mul_add_lt_is_or h 1
    simpa using h1
  rw [hor]
  apply Nat.eq_of_testBit_eq
  intro i
  rcases eq_or_ne i n with rfl | hne
  · simp [Nat.testBit_lt_two_pow h]
  · simp [Nat.testBit_two_pow, Ne.symm hne]

lemma gRun_masked_ballAux : ∀ n, n ≤ 16 → ∀ r, r < 2 ^ n → gRun r &&& 0x7FFF = 0x19B7 := by
  intro n
  induction n with
  | zero =>
    intro _ r hr
    have h0 : r = 0 := by omega
    rw [h0]
    exact gRun_masked_zero
  | succ m ih =>
    intro hm r hr
    by_cases hc : r < 2 ^ m
    · exact ih (by omega) r hc
    · have h2 : 2 ^ (m + 1) = 2 ^ m + 2 ^ m := by rw [Nat.pow_succ]; omega
      have hs : r - 2 ^ m < 2 ^ m := by omega
      have hr' : r = 2 ^ m ^^^ (r - 2 ^ m) := by
        rw [two_pow_xor_of_lt hs]; omega
      rw [hr', gRun_xor, Nat.and_xor_distrib_right, Nat.and_xor_distrib_right,
        gRun_masked_basis m (by omega), ih (by omega) _ hs, gRun_masked_zero]
      decide

lemma gRun_masked (r : Nat) (h : r < 65536) : gRun r &&& 0x7FFF = 0x19B7 := by
  have h16 : (2 : Nat) ^ 16 = 65536 := by norm_num
  exact gRun_masked_ballAux 16 le_rfl r (by omega)

/-! ## A valid buffer passes `CheckCrc` -/

lemma checkCrc_of_valid (bytes : List Nat) (hv : ValidCrcBuffer bytes) :
    CheckCrc bytes = true := by
  obtain ⟨hlen, heq⟩ := hv
  set A := _crc bytes >>> 8 with hA
  set B := _crc bytes % 256 with hB
  set pre := bytes.take (bytes.length - 2) with hpreDef
  have hprelen : pre.length = bytes.length - 2 := by
    rw [hpreDef, List.length_take]; omega
  have hdrop : bytes.drop 1 = pre.drop 1 ++ [A, B] := by
    conv_lhs => rw [heq]
    exact List.drop_append_of_le_length (by omega)
  have htake : (bytes.drop 1).take (bytes.length - 3) = pre.drop 1 := by
    rw [hdrop]
    exact List.take_left' (by rw [List.length_drop]; omega)
  set r := crcRun 0x7FFF (pre.drop 1) with hrDef
  have hcrc : _crc bytes = vWire r := by
    show ((crcRun 0x7FFF ((bytes.drop 1).take (bytes.length - 3))) ^^^ 0x7FFF) <<< 1 % 65536 = _
    rw [htake]
    rfl
  have hreg : crcRun 0x7FFF (bytes.drop 1) = gRun r := by
    rw [hdrop]
    show List.foldl crcByte 0x7FFF (pre.drop 1 ++ [A, B]) = _
    rw [List.foldl_append]
    show crcRun r [A, B] = gRun r
    rw [hA, hB, hcrc]
    rfl
  have hrlt : r < 65536 := crcRun_lt _ 0x7FFF (by norm_num)
  have hmask := gRun_masked r hrlt
  unfold CheckCrc
  rw [hreg, hmask]
  rfl

/-! ## A single bit flip in bytes `1 .. size-1` breaks `CheckCrc` -/

lemma checkCrc_eq_true_iff (l : List Nat) :
    CheckCrc l = true ↔ crcRun 0x7FFF (l.drop 1) &&& 0x7FFF = 0x19B7 := by
  unfold CheckCrc
  exact beq_iff_eq

lemma checkCrc_eq_false_iff (l : List Nat) :
    CheckCrc l = false ↔ crcRun 0x7FFF (l.drop 1) &&& 0x7FFF ≠ 0x19B7 := by
  rw [Bool.eq_false_iff]
  exact not_congr (checkCrc_eq_true_iff l)

lemma checkCrc_flip_false (l : List Nat) (p b : Nat)
    (hreg : crcRun 0x7FFF (l.drop 1) &&& 0x7FFF = 0x19B7)
    (hp : 1 ≤ p) (hpl : p < l.length) (hb : b < 8) (hlen : l.length ≤ 32) :
    CheckCrc (flipBit l p b) = false := by
  rw [checkCrc_eq_false_iff, crcRun_flip l p b hp hpl, Nat.and_xor_distrib_right, hreg]
  intro hcontra
  have hm : synd b (l.length - p - 1) &&& 0x7FFF = 0 := by
    have h3 := congrArg (fun z => 0x19B7 ^^^ z) hcontra
    simpa [xor_cancel_left, Nat.xor_self] using h3
  exact synd_masked_ne_zero' b (l.length - p - 1) hb (by omega) hm

lemma checkCrc_double_flip_false (l : List Nat) (p b p' b' : Nat)
    (hreg : crcRun 0x7FFF (l.drop 1) &&& 0x7FFF = 0x19B7)
    (hp : 1 ≤ p) (hpl : p < l.length) (hb : b < 8) (hlen : l.length ≤ 32)
    (hp' : 1 ≤ p') (hpl' : p' < l.length) (hb' : b' < 8)
    (hne : ¬(p' = p ∧ b' = b)) :
    CheckCrc (flipBit (flipBit l p b) p' b') = false := by
  have hlen2 : (flipBit l p b).length = l.length := by
    simp [flipBit]
  rw [checkCrc_eq_false_iff,
    crcRun_flip (flipBit l p b) p' b' hp' (by rw [hlen2]; exact hpl'), hlen2,
    crcRun_flip l p b hp hpl, Nat.and_xor_distrib_right, Nat.and_xor_distrib_right, hreg]
  intro hcontra
  have h3 := congrArg (fun z => 0x19B7 ^^^ z) hcontra
  have h4 : synd b (l.length - p - 1) &&& 0x7FFF ^^^
      (synd b' (l.length - p' - 1) &&& 0x7FFF) = 0 := by
    simpa [Nat.xor_assoc, xor_cancel_left, Nat.xor_self] using h3
  have h5 : synd b (l.length - p - 1) &&& 0x7FFF = synd b' (l.length - p' - 1) &&& 0x7FFF := by
    have := Nat.xor_eq_zero.mp h4
    exact this
  refine synd_masked_inj' hb (by omega) hb' (by omega) ?_ h5
  intro ⟨hb12, hc12⟩
  exact hne ⟨by omega, hb12.symm⟩

/-! ## The repair loop restores exactly the flipped bit -/

lemma getD_set_self (l : List Nat) : ∀ p x, p < l.length → (l.set p x).getD p 0 = x := by
  induction l with
  | nil => intro p x hp; simp at hp
  | cons a as ih =>
    intro p x hp
    cases p with
    | zero => rfl
    | succ q => exact ih q x (by simpa using hp)

lemma set_getD_self (l : List Nat) : ∀ p, p < l.length → l.set p (l.getD p 0) = l := by
  induction l with
  | nil => intro p hp; simp at hp
  | cons a as ih =>
    intro p hp
    cases p with
    | zero => rfl
    | succ q =>
      show a :: as.set q (as.getD q 0) = a :: as
      rw [ih q (by simpa using hp)]

lemma flipBit_flipBit (l : List Nat) (p b : Nat) (hp : p < l.length) :
    flipBit (flipBit l p b) p b = l := by
  unfold flipBit
  rw [getD_set_self _ _ _ hp, List.set_set, Nat.xor_assoc, Nat.xor_self, Nat.xor_zero]
  exact set_getD_self l p hp

lemma mem_repairPositions {n : Nat} {pb : Nat × Nat} :
    pb ∈ repairPositions n ↔ pb.1 < n ∧ pb.2 < 8 := by
  obtain ⟨p, b⟩ := pb
  simp only [repairPositions, List.mem_flatMap, List.mem_map, List.mem_range]
  constructor
  · rintro ⟨a, ha, b', hb', heq⟩
    obtain ⟨h1, h2⟩ := Prod.mk.injEq .. ▸ heq
    exact ⟨h1 ▸ ha, h2 ▸ hb'⟩
  · rintro ⟨h1, h2⟩
    exact ⟨p, h1, b, h2, rfl⟩

lemma find?_eq_some_of_unique {α : Type} (pred : α → Bool) :
    ∀ (l : List α) (tgt : α), tgt ∈ l → pred tgt = true →
      (∀ x ∈ l, x ≠ tgt → pred x = false) → l.find? pred = some tgt := by
  intro l
  induction l with
  | nil => intro tgt h; simp at h
  | cons a as ih =>
    intro tgt hmem hpred hothers
    by_cases ha : a = tgt
    · subst ha
      exact List.find?_cons_of_pos _ hpred
    · have hfa : pred a = false := hothers a (by simp) ha
      rw [List.find?_cons_of_neg _ (by simp [hfa])]
      have hmem' : tgt ∈ as := by
        rcases List.mem_cons.mp hmem with h | h
        · exact absurd h.symm ha
        · exact h
      exact ih tgt hmem' hpred fun x hx => hothers x (List.mem_cons_of_mem _ hx)

lemma repair_of_valid_flip (bs : List Nat) (p b : Nat)
    (hv : ValidCrcBuffer bs) (hlen : bs.length ≤ 32)
    (hp : 1 ≤ p) (hpl : p < bs.length) (hb : b < 8) :
    CheckCrcAndRepair (flipBit bs p b) = (true, bs) := by
  have hreg : crcRun 0x7FFF (bs.drop 1) &&& 0x7FFF = 0x19B7 :=
    (checkCrc_eq_true_iff bs).mp (checkCrc_of_valid bs hv)
  have hfalse : CheckCrc (flipBit bs p b) = false :=
    checkCrc_flip_false bs p b hreg hp hpl hb hlen
  have hlen2 : (flipBit bs p b).length = bs.length := by simp [flipBit]
  have hfind : (repairPositions (flipBit bs p b).length).find?
      (fun pb => CheckCrc (flipBit (flipBit bs p b) pb.1 pb.2)) = some (p, b) := by
    apply find?_eq_some_of_unique
    · exact mem_repairPositions.mpr ⟨by rw [hlen2]; exact hpl, hb⟩
    · show CheckCrc (flipBit (flipBit bs p b) p b) = true
      rw [flipBit_flipBit bs p b hpl]
      exact checkCrc_of_valid bs hv
    · intro x hx hne
      obtain ⟨p', b'⟩ := x
      have hx' := mem_repairPositions.mp hx
      rw [hlen2] at hx'
      show CheckCrc (flipBit (flipBit bs p b) p' b') = false
      by_cases hp0 : p' = 0
      · subst hp0
        rw [checkCrc_flip_byte0]
        exact hfalse
      · refine checkCrc_double_flip_false bs p b p' b' hreg hp hpl hb hlen
          (by omega) hx'.1 hx'.2 ?_
        intro ⟨h1, h2⟩
        exact hne (by rw [h1, h2])
  unfold CheckCrcAndRepair
  rw [hfalse, hfind]
  show (true, flipBit (flipBit bs p b) p b) = (true, bs)
  rw [flipBit_flipBit bs p b hpl]

/-! ## Claim C1 -/

/-- Claim C1, counterexample.  The claim states that flipping a single bit at
*any* byte index "including byte 0" makes `CheckCrc` return false.  On the
concrete valid buffer `[0x0E, 0x12, 0x34, 0x0C, 0x52]` (data `0x12 0x34`
with its computed trailing CRC `0x0C52`), flipping bit 0 of byte 0 leaves
`CheckCrc` true: the verification loop starts at byte 1 and never reads
the SOF byte. -/
theorem crc_roundtrip_byte0_cex :
    ValidCrcBuffer [0x0E, 0x12, 0x34, 0x0C, 0x52] ∧
    CheckCrc [0x0E, 0x12, 0x34, 0x0C, 0x52] = true ∧
    CheckCrc (flipBit [0x0E, 0x12, 0x34, 0x0C, 0x52] 0 0) = true := by
  refine ⟨⟨by norm_num, by decide⟩, by decide, by decide⟩

/-- Claim C1 (amended): for every frame buffer of at most
`VAN_MAX_PACKET_SIZE` bytes whose trailing two bytes hold the validly
computed CRC, `CheckCrc` returns true; flipping one bit of any byte
*other than byte 0* makes `CheckCrc` return false, and a subsequent
`CheckCrcAndRepair` returns true and leaves the buffer byte-identical to
the pre-corruption original; flipping a bit inside byte 0 (the SOF byte,
which the CRC loops skip) leaves `CheckCrc` true. -/
theorem crc_roundtrip_repair (bs : List Nat) (p b : Nat)
    (hv : ValidCrcBuffer bs) (hlen : bs.length ≤ VAN_MAX_PACKET_SIZE)
    (hp : 1 ≤ p) (hpl : p < bs.length) (hb : b < 8) :
    CheckCrc bs = true ∧
    CheckCrc (flipBit bs 0 b) = true ∧
    CheckCrc (flipBit bs p b) = false ∧
    CheckCrcAndRepair (flipBit bs p b) = (true, bs) := by
  have hlen32 : bs.length ≤ 32 := hlen
  have hok := checkCrc_of_valid bs hv
  have hreg := (checkCrc_eq_true_iff bs).mp hok
  refine ⟨hok, ?_, ?_, ?_⟩
  · rw [checkCrc_flip_byte0]
    exact hok
  · exact checkCrc_flip_false bs p b hreg hp hpl hb hlen32
  · exact repair_of_valid_flip bs p b hv hlen32 hp hpl hb

/-- Claim C1, witness: the amended round-trip theorem at the concrete valid
buffer `[0x0E, 0x12, 0x34, 0x0C, 0x52]`, flipping bit 5 of byte 2. -/
theorem crc_roundtrip_repair_witness :
    CheckCrc [0x0E, 0x12, 0x34, 0x0C, 0x52] = true ∧
    CheckCrc (flipBit [0x0E, 0x12, 0x34, 0x0C, 0x52] 0 5) = true ∧
    CheckCrc (flipBit [0x0E, 0x12, 0x34, 0x0C, 0x52] 2 5) = false ∧
    CheckCrcAndRepair (flipBit [0x0E, 0x12, 0x34, 0x0C, 0x52] 2 5) =
      (true, [0x0E, 0x12, 0x34, 0x0C, 0x52]) :=
  crc_roundtrip_repair [0x0E, 0x12, 0x34, 0x0C, 0x52] 2 5
    ⟨by norm_num, by decide⟩ (by norm_num [VAN_MAX_PACKET_SIZE])
    (by norm_num) (by norm_num) (by norm_num)

/-! ## Bridging the embedded 16-bit CRC loops to the spec's 15-bit register -/

lemma bool_xor_eq_bne (a b : Bool) : (a ^^ b) = (a != b) := by
  cases a <;> cases b <;> rfl

lemma mod_mul_two (y m : Nat) (hm : 2 < m) : (y % m) * 2 % m = y * 2 % m := by
  conv_rhs => rw [Nat.mul_mod]
  rw [Nat.mod_eq_of_lt hm]

lemma shiftLeft_mod256_step (x a : Nat) :
    (((x <<< a) % 256) <<< 1) % 256 = (x <<< (a + 1)) % 256 := by
  rw [Nat.shiftLeft_eq x a, Nat.shiftLeft_eq _ 1, Nat.shiftLeft_eq x (a + 1), pow_one,
    pow_succ, ← Nat.mul_assoc]
  exact mod_mul_two (x * 2 ^ a) 256 (by norm_num)

lemma testBit7_shift_mod (x a : Nat) (h : a ≤ 7) :
    ((x <<< a) % 256).testBit 7 = x.testBit (7 - a) := by
  have h1 := Nat.testBit_mod_two_pow (x <<< a) 8 7
  norm_num at h1
  rw [h1, decide_eq_true h, Bool.true_and]

lemma specStepsAux_eight (r y : Nat) : specStepsAux 8 (r, y) = specCrcByte r y := by
  have t1 := testBit7_shift_mod y 1 (by norm_num)
  have t2 := testBit7_shift_mod y 2 (by norm_num)
  have t3 := testBit7_shift_mod y 3 (by norm_num)
  have t4 := testBit7_shift_mod y 4 (by norm_num)
  have t5 := testBit7_shift_mod y 5 (by norm_num)
  have t6 := testBit7_shift_mod y 6 (by norm_num)
  have t7 := testBit7_shift_mod y 7 (by norm_num)
  simp only [specStepsAux, shiftLeft_mod256_step, t1, t2, t3, t4, t5, t6, t7]
  rfl

lemma crcStep_bridge (c y : Nat) :
    (crcStep (c, y)).1 % 32768 = specCrcStep (c % 32768) (y.testBit 7) := by
  have ht : (c % 32768).testBit 14 = c.testBit 14 := by
    have h := Nat.testBit_mod_two_pow c 15 14
    norm_num at h
    exact h
  have hreg : (c <<< 1) % 65536 % 32768 = ((c % 32768) <<< 1) % 32768 := by
    rw [Nat.mod_mod_of_dvd _ (by norm_num : (32768 : Nat) ∣ 65536),
      Nat.shiftLeft_eq c 1, Nat.shiftLeft_eq (c % 32768) 1, pow_one]
    exact (mod_mul_two c 32768 (by norm_num)).symm
  rw [crcStep_fst]
  simp only [specCrcStep, ht]
  rw [xor_mod_32768, hreg, bool_xor_eq_bne]
  cases hcond : (c.testBit 14 != y.testBit 7) <;>
    simp [hcond, VAN_CRC_POLYNOM]

lemma crcSteps_bridge : ∀ (j : Nat) (c y : Nat),
    (crcSteps j (c, y)).1 % 32768 = specStepsAux j (c % 32768, y) := by
  intro j
  induction j with
  | zero => intro c y; rfl
  | succ n ih =>
    intro c y
    show (crcSteps n (crcStep (c, y))).1 % 32768 =
      specStepsAux n (specCrcStep (c % 32768) (y.testBit 7), (y <<< 1) % 256)
    have heta : crcStep (c, y) = ((crcStep (c, y)).1, (y <<< 1) % 256) := by
      rw [← crcStep_snd c y]
    rw [heta, ih ((crcStep (c, y)).1) ((y <<< 1) % 256), crcStep_bridge]

lemma crcByte_bridge (c y : Nat) : crcByte c y % 32768 = specCrcByte (c % 32768) y := by
  show (crcSteps 8 (c, y)).1 % 32768 = _
  rw [crcSteps_bridge 8 c y, specStepsAux_eight]

lemma crcRun_bridge : ∀ (bs : List Nat) (s : Nat),
    crcRun s bs % 32768 = specCrcRun (s % 32768) bs := by
  intro bs
  induction bs with
  | nil => intro s; rfl
  | cons y l ih =>
    intro s
    show crcRun (crcByte s y) l % 32768 = specCrcRun (specCrcByte (s % 32768) y) l
    rw [ih (crcByte s y), crcByte_bridge]

lemma and_32767 (x : Nat) : x &&& 32767 = x % 32768 := by
  have h := Nat.and_pow_two_sub_one_eq_mod x 15
  norm_num at h
  exact h

lemma specCrcStep_lt (reg : Nat) (b : Bool) : specCrcStep reg b < 32768 := by
  simp only [specCrcStep]
  have h1 : (reg <<< 1) % 32768 < 32768 := Nat.mod_lt _ (by norm_num)
  have h15 : (2 : Nat) ^ 15 = 32768 := by norm_num
  split
  · rw [← h15] at h1 ⊢
    exact Nat.xor_lt_two_pow h1 (by norm_num [VAN_CRC_POLYNOM])
  · exact h1

lemma specCrcByte_lt (reg y : Nat) : specCrcByte reg y < 32768 := by
  unfold specCrcByte
  exact specCrcStep_lt _ _

lemma specCrcRun_lt (bs : List Nat) : ∀ s : Nat, s < 32768 → specCrcRun s bs < 32768 := by
  induction bs with
  | nil => intro s h; exact h
  | cons y l ih => intro s _; exact ih (specCrcByte s y) (specCrcByte_lt s y)

lemma mul_two_mod_65536 (x : Nat) : x * 2 % 65536 = x % 32768 * 2 := by
  have h := Nat.mul_mod_mul_right 2 x 32768
  norm_num at h
  exact h

/-! ## Claim C3 -/

/-- Claim C3, counterexample.  The claim describes `_crc` as the 15-bit CRC
register "with, as the only final step, a left shift by one bit".  On the
three-byte buffer `[0, 0, 0]` the register loop runs zero times, so the
register is still `0x7FFF`; the code's `_crc` returns 0 (because it first
complements with `^ 0x7FFF`), while the claim's shift-only reading yields
`0xFFFE ≠ 0`. -/
theorem crc_compute_shift_only_cex :
    _crc [0, 0, 0] = 0 ∧ specClaimComputeCrc [0, 0, 0] = 0xFFFE := by
  exact ⟨by decide, by decide⟩

/-- Claim C3 (amended): `_crc` returns the value of the spec's 15-bit CRC
register (polynomial `0x0F9D`, initial register `0x7FFF`, bytes
most-significant-bit first, over all frame bytes except the first byte
and the final two trailing CRC bytes) with, as the final steps, an XOR
with `0x7FFF` (one's complement of the 15-bit register) followed by the
left shift by one bit into the 16-bit wire representation. -/
theorem crc_compute_amended (bytes : List Nat) :
    _crc bytes =
      ((specCrcRun 0x7FFF ((bytes.drop 1).take (bytes.length - 3)) ^^^ 0x7FFF) <<< 1)
        % 65536 := by
  unfold _crc
  rw [Nat.shiftLeft_eq _ 1, Nat.shiftLeft_eq _ 1, pow_one,
    mul_two_mod_65536, mul_two_mod_65536, xor_mod_32768, xor_mod_32768, crcRun_bridge,
    Nat.mod_eq_of_lt (specCrcRun_lt _ 0x7FFF (by norm_num))]

/-! ## Claim C5 -/

set_option maxRecDepth 40000 in
/-- Claim C5, counterexample.  The claim says the verify variant "processes
the entire frame including the trailing CRC bytes".  On the concrete
valid buffer `[0x0E, 0x12, 0x34, 0x0C, 0x52]`, `CheckCrc` returns true,
but the spec-worded verification of the *entire* frame (starting at byte
0) lands on register `10168 ≠ 0x19B7`: the code's loop skips byte 0. -/
theorem check_crc_entire_frame_cex :
    CheckCrc [0x0E, 0x12, 0x34, 0x0C, 0x52] = true ∧
    specVerifyEntireFrame [0x0E, 0x12, 0x34, 0x0C, 0x52] = false := by
  exact ⟨by decide, by decide⟩

/-- Claim C5 (amended): `CheckCrc` processes the entire frame *except the
first byte*, trailing CRC bytes included — running the spec's 15-bit CRC
(polynomial `0x0F9D`, initial register `0x7FFF`, bytes
most-significant-bit first) — and returns true if and only if the final
15-bit register equals the fixed constant `0x19B7`. -/
theorem check_crc_verify_amended (bytes : List Nat) :
    CheckCrc bytes = (specCrcRun 0x7FFF (bytes.drop 1) == 0x19B7) := by
  unfold CheckCrc
  rw [and_32767, crcRun_bridge]

/-! ## Claim C4 -/

/-- Claim C4, counterexample.  The claim says a stored jitter remainder
*strictly decreases* the next call's effective cycle count.  A first call
at 900 cycles stores remainder 100 (and classifies as 1 bit); the second
call at 1100 cycles then classifies `1100 + 100 = 1200` as 2 bit times,
whereas the claim's decreased reading `1100 - 100 = 1000` still
classifies as 1 bit time: the remainder is added, not subtracted. -/
theorem jitter_decrease_cex :
    nBitsFromCycles 1 900 0 = (1, 100) ∧
    nBitsFromCycles 1 1100 100 = (2, 0) ∧
    nBitsFromCycles 1 (1100 - 100) 0 = (1, 200) := by
  exact ⟨by decide, by decide, by decide⟩

/-- Claim C4 (amended): the jitter remainder stored by one call strictly
*increases* the next call's effective cycle count: a call with carried
jitter `j` behaves exactly like a call on `(nCycles + j) % 2^32` with
zero carried jitter — so the incoming remainder is consumed exactly once
(it is reset before any new remainder is stored) and, absent 32-bit
wrap-around, the effective cycle count grows by exactly `j`. -/
theorem jitter_carry_amended (f c j : Nat) :
    nBitsFromCycles f c j = nBitsFromCycles f ((c + j) % 4294967296) 0 ∧
    (c + j < 4294967296 → 0 < j → (c + j) % 4294967296 = c + j ∧ c < c + j) := by
  constructor
  · simp only [nBitsFromCycles]
    have h : ((c + j) % 4294967296 + 0) % 4294967296 = (c + j) % 4294967296 := by omega
    rw [h]
  · intro h1 h2
    omega

/-- Claim C4, witness: the amended jitter-carry theorem at the concrete
second call `nBitsFromCycles 1 1100 100`. -/
theorem jitter_carry_amended_witness :
    nBitsFromCycles 1 1100 100 = nBitsFromCycles 1 ((1100 + 100) % 4294967296) 0 ∧
    (1100 + 100) % 4294967296 = 1100 + 100 ∧ 1100 < 1100 + 100 :=
  ⟨(jitter_carry_amended 1 1100 100).1,
   (jitter_carry_amended 1 1100 100).2 (by norm_num) (by norm_num)⟩

/-! ## Claim C9 -/

/-- Claim C9: a spurious interrupt (pin level equal to the level recorded at
the previous invocation) returns before touching anything: the whole
receiver state — pool, queue indices, decoder statics, and in particular
the saved previous-edge timestamp `prev` — is unchanged, so the next
genuine edge's cycle delta spans the spurious interrupt. -/
theorem spurious_isr_no_effect (f : Nat) (s : TVanBus) (lvl : PinLevel) (curr : Nat)
    (h : lvl = s.prevPinLevelChangedTo) :
    RxPinChangeIsr f s lvl curr = s := by
  unfold RxPinChangeIsr
  rw [if_pos h]

/-- Claim C9, witness: the spurious-interrupt theorem at a concrete
one-slot receiver in its initial state (pin still at the recessive
level). -/
theorem spurious_isr_no_effect_witness :
    RxPinChangeIsr 1 { pool := [{}] } VAN_BIT_RECESSIVE 1234 = { pool := [{}] } :=
  spurious_isr_no_effect 1 { pool := [{}] } VAN_BIT_RECESSIVE 1234 rfl

/-! ## Claim C10 -/

/-- Claim C10: `DataLen` always returns `size - 5` in signed arithmetic with
no clamping, so it is negative for every descriptor whose `size` is below
5, while the `DumpRaw` display expression separately clamps the printed
payload length at zero. -/
theorem datalen_no_clamp (size : Nat) :
    DataLen size = (size : Int) - 5 ∧
    (size < 5 → DataLen size < 0) ∧
    dumpRawDataLen size = max (DataLen size) 0 := by
  refine ⟨rfl, ?_, ?_⟩
  · intro h
    unfold DataLen
    omega
  · unfold dumpRawDataLen DataLen
    split
    · next h => rw [max_eq_right (le_of_lt h)]
    · next h => rw [max_eq_left (by omega)]

/-- Claim C10, witness: the `DataLen` theorem at the concrete size 2 (e.g. a
frame force-completed right after its first decoded bytes): the payload
length is the negative value `-3` while the dump clamps to 0. -/
theorem datalen_no_clamp_witness :
    DataLen 2 = (2 : Int) - 5 ∧ DataLen 2 < 0 ∧ dumpRawDataLen 2 = max (DataLen 2) 0 :=
  ⟨(datalen_no_clamp 2).1, (datalen_no_clamp 2).2.1 (by norm_num), (datalen_no_clamp 2).2.2⟩

/-! ## State machine plumbing -/

lemma getD_set_eq_self {α : Type} (l : List α) (dflt : α) :
    ∀ p x, p < l.length → (l.set p x).getD p dflt = x := by
  induction l with
  | nil => intro p x hp; simp at hp
  | cons a as ih =>
    intro p x hp
    cases p with
    | zero => rfl
    | succ q => exact ih q x (by simpa using hp)

lemma set_getD_eq_self {α : Type} (l : List α) (dflt : α) :
    ∀ p, p < l.length → l.set p (l.getD p dflt) = l := by
  induction l with
  | nil => intro p hp; simp at hp
  | cons a as ih =>
    intro p hp
    cases p with
    | zero => rfl
    | succ q =>
      show a :: as.set q (as.getD q dflt) = a :: as
      rw [ih q (by simpa using hp)]

lemma modifyHead_getD (s0 : TVanBus) (g : TVanPacketRxDesc → TVanPacketRxDesc)
    (hlen : s0.head < s0.pool.length) :
    (modifyHead s0 g).pool.getD s0.head {} = g (s0.pool.getD s0.head {}) := by
  unfold modifyHead
  exact getD_set_eq_self _ _ _ _ hlen

lemma modifyHead_poolLength (s0 : TVanBus) (g : TVanPacketRxDesc → TVanPacketRxDesc) :
    (modifyHead s0 g).pool.length = s0.pool.length := by
  unfold modifyHead
  exact List.length_set ..

lemma advanceHead_head (x : TVanBus) :
    (_AdvanceHead x).head = (x.head + 1) % x.pool.length := by
  unfold _AdvanceHead
  show (x.head + 1) % (modifyHead x _).pool.length = _
  rw [modifyHead_poolLength]

lemma advanceHead_getD (x : TVanBus) (hlen : x.head < x.pool.length) :
    (_AdvanceHead x).pool.getD x.head {} = { x.pool.getD x.head {} with state := .done } := by
  show (modifyHead x fun d => { d with state := .done }).pool.getD x.head {} = _
  exact modifyHead_getD x _ hlen

/-- With the head descriptor's `slot` field already holding its own
index, the ISR's bookkeeping writes reduce to a plain record update that
leaves the pool untouched. -/
lemma isrBookkeeping_eq_of_slot (s : TVanBus) (lvl : PinLevel) (curr j : Nat)
    (hlen : s.head < s.pool.length)
    (hslot : (s.pool.getD s.head {}).slot = s.head) :
    isrBookkeeping s lvl curr j =
      { s with
        prevPinLevelChangedTo := lvl,
        lastMediaAccessAt := if lvl = VAN_BIT_RECESSIVE then curr else s.lastMediaAccessAt,
        prev := curr,
        jitter := j } := by
  have hgen : ∀ X : TVanPacketRxDesc, X.slot = s.head → { X with slot := s.head } = X := by
    intro X hX
    rw [← hX]
  have hd := hgen _ hslot
  unfold isrBookkeeping modifyHead
  simp only [hd]
  rw [set_getD_eq_self _ _ _ hlen]

lemma isrBookkeeping_getD (s : TVanBus) (lvl : PinLevel) (curr j : Nat)
    (hlen : s.head < s.pool.length) :
    (isrBookkeeping s lvl curr j).pool.getD s.head {} =
      { s.pool.getD s.head {} with slot := s.head } := by
  unfold isrBookkeeping
  exact modifyHead_getD _ _ hlen

lemma isrBookkeeping_poolLength (s : TVanBus) (lvl : PinLevel) (curr j : Nat) :
    (isrBookkeeping s lvl curr j).pool.length = s.pool.length := by
  unfold isrBookkeeping
  exact modifyHead_poolLength ..

/-! ### Branch dispatch of `RxPinChangeIsr` -/

lemma isr_eq_waitingAck (f : Nat) (s : TVanBus) (lvl : PinLevel) (curr : Nat)
    (hspur : lvl ≠ s.prevPinLevelChangedTo)
    (hstate : (s.pool.getD s.head {}).state = .waitingAck) :
    RxPinChangeIsr f s lvl curr =
      isrWaitingAck (isrBookkeeping s lvl curr
        (nBitsFromCycles f (isrNCycles s.prev curr) s.jitter).2) := by
  unfold RxPinChangeIsr
  rw [if_neg hspur]
  simp only []
  rw [hstate]
  simp

lemma isr_eq_done (f : Nat) (s : TVanBus) (lvl : PinLevel) (curr : Nat)
    (hspur : lvl ≠ s.prevPinLevelChangedTo)
    (hstate : (s.pool.getD s.head {}).state = .done) :
    RxPinChangeIsr f s lvl curr =
      isrOverrun (isrBookkeeping s lvl curr
        (nBitsFromCycles f (isrNCycles s.prev curr) s.jitter).2) := by
  unfold RxPinChangeIsr
  rw [if_neg hspur]
  simp only []
  rw [hstate]
  simp

lemma isr_eq_nbits_searching (f : Nat) (s : TVanBus) (lvl : PinLevel) (curr : Nat)
    (hspur : lvl ≠ s.prevPinLevelChangedTo)
    (hstate : (s.pool.getD s.head {}).state = .searching)
    (hnb : 9 < (nBitsFromCycles f (isrNCycles s.prev curr) s.jitter).1) :
    RxPinChangeIsr f s lvl curr =
      isrNBitsError (isrBookkeeping s lvl curr
        (nBitsFromCycles f (isrNCycles s.prev curr) s.jitter).2) .searching := by
  unfold RxPinChangeIsr
  rw [if_neg hspur]
  simp only []
  rw [hstate]
  simp [hnb]

lemma isr_eq_nbits_loading (f : Nat) (s : TVanBus) (lvl : PinLevel) (curr : Nat)
    (hspur : lvl ≠ s.prevPinLevelChangedTo)
    (hstate : (s.pool.getD s.head {}).state = .loading)
    (hnb : 9 < (nBitsFromCycles f (isrNCycles s.prev curr) s.jitter).1) :
    RxPinChangeIsr f s lvl curr =
      isrNBitsError (isrBookkeeping s lvl curr
        (nBitsFromCycles f (isrNCycles s.prev curr) s.jitter).2) .loading := by
  unfold RxPinChangeIsr
  rw [if_neg hspur]
  simp only []
  rw [hstate]
  simp [hnb]

/-! ### The ISR never clears the overrun flag -/

lemma isrBookkeeping_overrun (s : TVanBus) (lvl : PinLevel) (curr j : Nat) :
    (isrBookkeeping s lvl curr j)._overrun = s._overrun := rfl

lemma isrVacant_overrun (s0 : TVanBus) (lvl : PinLevel) :
    (isrVacant s0 lvl)._overrun = s0._overrun := by
  unfold isrVacant
  split <;> rfl

lemma isrWaitingAck_overrun (s0 : TVanBus) :
    (isrWaitingAck s0)._overrun = s0._overrun := rfl

lemma isrNBitsError_overrun (s0 : TVanBus) (st : PacketReadState) :
    (isrNBitsError s0 st)._overrun = s0._overrun := by
  unfold isrNBitsError
  split <;> rfl

lemma isrAccumulate_overrun (s0 : TVanBus) (st : PacketReadState) (lvl : PinLevel)
    (n j : Nat) : (isrAccumulate s0 st lvl n j)._overrun = s0._overrun := by
  simp only [isrAccumulate]
  split_ifs <;> rfl

lemma isr_overrun_mono (f : Nat) (s : TVanBus) (lvl : PinLevel) (curr : Nat)
    (h : s._overrun = true) : (RxPinChangeIsr f s lvl curr)._overrun = true := by
  unfold RxPinChangeIsr
  split
  · exact h
  · simp only []
    split_ifs <;>
      simp only [isrVacant_overrun, isrWaitingAck_overrun, isrNBitsError_overrun,
        isrAccumulate_overrun, isrBookkeeping_overrun, isrOverrun, h]

/-! ### Descriptor views of the dispatched branches -/

lemma isr_waitingAck_getD (s : TVanBus) (lvl : PinLevel) (curr j : Nat)
    (hlen : s.head < s.pool.length) :
    (isrWaitingAck (isrBookkeeping s lvl curr j)).pool.getD s.head {} =
      { s.pool.getD s.head {} with slot := s.head, ack := .vanAck } := by
  have h2 : (isrBookkeeping s lvl curr j).head < (isrBookkeeping s lvl curr j).pool.length := by
    rw [isrBookkeeping_poolLength]
    exact hlen
  unfold isrWaitingAck
  refine (show (modifyHead (isrBookkeeping s lvl curr j)
      fun d => { d with ack := .vanAck }).pool.getD s.head {} =
        (fun d => { d with ack := PacketAck.vanAck })
          ((isrBookkeeping s lvl curr j).pool.getD s.head {})
      from modifyHead_getD _ _ h2).trans ?_
  rw [isrBookkeeping_getD s lvl curr j hlen]

lemma isr_nbits_searching_getD (s : TVanBus) (lvl : PinLevel) (curr j : Nat)
    (hlen : s.head < s.pool.length) :
    (isrNBitsError (isrBookkeeping s lvl curr j) .searching).pool.getD s.head {} =
      { s.pool.getD s.head {} with slot := s.head, size := 0 } := by
  have h2 : (isrBookkeeping s lvl curr j).head < (isrBookkeeping s lvl curr j).pool.length := by
    rw [isrBookkeeping_poolLength]
    exact hlen
  unfold isrNBitsError
  rw [if_pos rfl]
  show (modifyHead (isrBookkeeping s lvl curr j)
    fun d => { d with size := 0 }).pool.getD s.head {} = _
  refine (show (modifyHead (isrBookkeeping s lvl curr j)
      fun d => { d with size := 0 }).pool.getD s.head {} =
        (fun d => { d with size := 0 })
          ((isrBookkeeping s lvl curr j).pool.getD s.head {})
      from modifyHead_getD _ _ h2).trans ?_
  rw [isrBookkeeping_getD s lvl curr j hlen]

lemma isr_nbits_loading_getD (s : TVanBus) (lvl : PinLevel) (curr j : Nat)
    (hlen : s.head < s.pool.length) :
    (isrNBitsError (isrBookkeeping s lvl curr j) .loading).pool.getD s.head {} =
      { s.pool.getD s.head {} with
        slot := s.head, result := .vanRxErrorNBits, state := .done } := by
  have h2 : (isrBookkeeping s lvl curr j).head < (isrBookkeeping s lvl curr j).pool.length := by
    rw [isrBookkeeping_poolLength]
    exact hlen
  have h3 : (modifyHead (isrBookkeeping s lvl curr j)
      fun d => { d with result := PacketResult.vanRxErrorNBits }).head <
      (modifyHead (isrBookkeeping s lvl curr j)
        fun d => { d with result := PacketResult.vanRxErrorNBits }).pool.length := by
    rw [modifyHead_poolLength, isrBookkeeping_poolLength]
    exact hlen
  unfold isrNBitsError
  rw [if_neg (by decide)]
  refine (show (_AdvanceHead (modifyHead (isrBookkeeping s lvl curr j)
      fun d => { d with result := PacketResult.vanRxErrorNBits })).pool.getD s.head {} =
        { (modifyHead (isrBookkeeping s lvl curr j)
            fun d => { d with result := PacketResult.vanRxErrorNBits }).pool.getD s.head {} with
          state := .done }
      from advanceHead_getD _ h3).trans ?_
  have hinner : (modifyHead (isrBookkeeping s lvl curr j)
      fun d => { d with result := PacketResult.vanRxErrorNBits }).pool.getD s.head {} =
      { s.pool.getD s.head {} with slot := s.head, result := .vanRxErrorNBits } := by
    refine (show (modifyHead (isrBookkeeping s lvl curr j)
        fun d => { d with result := PacketResult.vanRxErrorNBits }).pool.getD s.head {} =
          (fun d => { d with result := PacketResult.vanRxErrorNBits })
            ((isrBookkeeping s lvl curr j).pool.getD s.head {})
        from modifyHead_getD _ _ h2).trans ?_
    rw [isrBookkeeping_getD s lvl curr j hlen]
  rw [hinner]

lemma isr_nbits_loading_head (s : TVanBus) (lvl : PinLevel) (curr j : Nat) :
    (isrNBitsError (isrBookkeeping s lvl curr j) .loading).head =
      (s.head + 1) % s.pool.length := by
  unfold isrNBitsError
  rw [if_neg (by decide), advanceHead_head, modifyHead_poolLength, isrBookkeeping_poolLength]
  rfl

/-! ## Claim C2 -/

/-- Claim C2, counterexample.  The claim says a pin-edge bit observed in
`WAITING_ACK` "advances the queue head and marks the current slot DONE".
On a concrete two-slot receiver whose head descriptor is in
`WAITING_ACK`, the pin-edge ISR records the acknowledgement but leaves
the head at slot 0 and the descriptor still in `WAITING_ACK`: in the code
the advance (`_AdvanceHead`) is performed only by the timer ISR
`WaitAckIsr` (the call in the pin-edge path is commented out). -/
theorem waiting_ack_pin_edge_cex :
    (RxPinChangeIsr 1 { pool := [{ state := .waitingAck }, {}] } .low 800).head = 0 ∧
    ((RxPinChangeIsr 1 { pool := [{ state := .waitingAck }, {}] } .low 800).pool.getD 0
      {}).state = PacketReadState.waitingAck := by
  exact ⟨by decide, by decide⟩

/-- Claim C2 (amended): in `WAITING_ACK`, a pin edge observed before the
timeout fires records `ack = ACK` but leaves the descriptor in
`WAITING_ACK` and the head in place; the armed timeout `WaitAckIsr` —
which fires in either case — performs the single completion: it marks
the current slot `DONE`, advances the queue head (promoting the next pool
slot), and preserves the recorded `ack`, which is still `NONE` when no
bit was observed. -/
theorem waiting_ack_completion (f : Nat) (s : TVanBus) (lvl : PinLevel) (curr : Nat)
    (hspur : lvl ≠ s.prevPinLevelChangedTo) (hlen : s.head < s.pool.length)
    (hstate : (s.pool.getD s.head {}).state = .waitingAck) :
    (RxPinChangeIsr f s lvl curr).head = s.head ∧
    ((RxPinChangeIsr f s lvl curr).pool.getD s.head {}).state = .waitingAck ∧
    ((RxPinChangeIsr f s lvl curr).pool.getD s.head {}).ack = .vanAck ∧
    (WaitAckIsr s).head = (s.head + 1) % s.pool.length ∧
    ((WaitAckIsr s).pool.getD s.head {}).state = .done ∧
    ((WaitAckIsr s).pool.getD s.head {}).ack = (s.pool.getD s.head {}).ack := by
  have hred := isr_eq_waitingAck f s lvl curr hspur hstate
  have hw : (WaitAckIsr s).pool.getD s.head {} =
      { s.pool.getD s.head {} with state := .done } := by
    unfold WaitAckIsr
    exact advanceHead_getD { s with ackTimerArmed := false } hlen
  refine ⟨?_, ?_, ?_, ?_, ?_, ?_⟩
  · rw [hred]; rfl
  · rw [hred, isr_waitingAck_getD s lvl curr _ hlen]
    exact hstate
  · rw [hred, isr_waitingAck_getD s lvl curr _ hlen]
  · unfold WaitAckIsr
    exact advanceHead_head { s with ackTimerArmed := false }
  · rw [hw]
  · rw [hw]

/-- Claim C2, witness: the completion theorem at a concrete two-slot
receiver with the head descriptor in `WAITING_ACK`. -/
theorem waiting_ack_completion_witness :
    ((RxPinChangeIsr 1 ({ pool := [{ state := .waitingAck }, {}] } : TVanBus) .low
      800).pool.getD 0 {}).ack = PacketAck.vanAck ∧
    (WaitAckIsr ({ pool := [{ state := .waitingAck }, {}] } : TVanBus)).head = 1 := by
  have h := waiting_ack_completion 1 { pool := [{ state := .waitingAck }, {}] } .low 800
    (by decide) (by decide) (by decide)
  refine ⟨h.2.2.1, ?_⟩
  rw [h.2.2.2.1]
  decide

/-! ## Claim C6 -/

/-- Claim C6: when the head descriptor is `DONE` (queue full) and the
descriptor's `slot` field already holds its own index — as it does in
every state the ISR itself produces — a pin edge only sets the latched
overrun flag and performs the usual edge bookkeeping: the pool (and in
particular the `DONE` descriptor), the queue indices and the counters are
all untouched, and no new frame is started.  Moreover the flag is sticky:
no `RxPinChangeIsr` or `WaitAckIsr` transition ever clears it; it is
cleared exactly by a consumer `Receive` call that passes the overrun
query pointer. -/
theorem done_head_overrun_only (f : Nat) (s : TVanBus) (lvl : PinLevel) (curr : Nat)
    (hspur : lvl ≠ s.prevPinLevelChangedTo) (hlen : s.head < s.pool.length)
    (hslot : (s.pool.getD s.head {}).slot = s.head)
    (hstate : (s.pool.getD s.head {}).state = .done) :
    RxPinChangeIsr f s lvl curr =
      { s with
        prevPinLevelChangedTo := lvl,
        lastMediaAccessAt := if lvl = VAN_BIT_RECESSIVE then curr else s.lastMediaAccessAt,
        prev := curr,
        jitter := (nBitsFromCycles f (isrNCycles s.prev curr) s.jitter).2,
        _overrun := true } ∧
    (∀ (f2 : Nat) (s2 : TVanBus) (lvl2 : PinLevel) (curr2 : Nat), s2._overrun = true →
      (RxPinChangeIsr f2 s2 lvl2 curr2)._overrun = true) ∧
    (∀ s2 : TVanBus, s2._overrun = true → (WaitAckIsr s2)._overrun = true) ∧
    (∀ (s2 : TVanBus) (pkt : TVanPacketRxDesc) (oo : Bool), Available s2 = true →
      (Receive s2 pkt true oo).2.2.2._overrun = false) := by
  refine ⟨?_, isr_overrun_mono, fun s2 h => h, ?_⟩
  · rw [isr_eq_done f s lvl curr hspur hstate,
      isrBookkeeping_eq_of_slot s lvl curr _ hlen hslot]
    rfl
  · intro s2 pkt oo hA
    unfold Receive
    rw [if_pos hA]
    rfl

/-- Claim C6, witness: the overrun theorem at a concrete full one-slot
receiver, together with a sticky-flag instance and a consumer clear. -/
theorem done_head_overrun_only_witness :
    (RxPinChangeIsr 1 ({ pool := [{ state := .done }] } : TVanBus) .low 800)._overrun =
      true ∧
    (Receive ({ pool := [{ state := .done }], _overrun := true } : TVanBus) {} true
      false).2.2.2._overrun = false := by
  have h := done_head_overrun_only 1 { pool := [{ state := .done }] } .low 800
    (by decide) (by decide) (by decide) (by decide)
  constructor
  · rw [h.1]
  · exact h.2.2.2 { pool := [{ state := .done }], _overrun := true } {} false (by decide)

/-! ## Claim C7 -/

/-- Claim C7: a run classifying to more than 9 bit-times is handled as
follows.  In `SEARCHING`, the accumulated bit count, accumulated bits and
descriptor size are reset while the state remains `SEARCHING`: no result
code is set, the head does not move, no descriptor is completed, the
corrupt/repaired counters and the overrun flag are untouched.  In
`LOADING`, the descriptor's result is set to `ERROR_NBITS` and the frame
is force-completed: the slot is marked `DONE` and the queue head advances
to the next pool slot. -/
theorem long_run_error_handling (f : Nat) (s : TVanBus) (lvl : PinLevel) (curr : Nat)
    (hspur : lvl ≠ s.prevPinLevelChangedTo) (hlen : s.head < s.pool.length)
    (hnb : 9 < (nBitsFromCycles f (isrNCycles s.prev curr) s.jitter).1) :
    ((s.pool.getD s.head {}).state = .searching →
      (RxPinChangeIsr f s lvl curr).atBit = 0 ∧
      (RxPinChangeIsr f s lvl curr).readBits = 0 ∧
      ((RxPinChangeIsr f s lvl curr).pool.getD s.head {}).size = 0 ∧
      ((RxPinChangeIsr f s lvl curr).pool.getD s.head {}).state = .searching ∧
      ((RxPinChangeIsr f s lvl curr).pool.getD s.head {}).result =
        (s.pool.getD s.head {}).result ∧
      (RxPinChangeIsr f s lvl curr).head = s.head ∧
      (RxPinChangeIsr f s lvl curr).nCorrupt = s.nCorrupt ∧
      (RxPinChangeIsr f s lvl curr).nRepaired = s.nRepaired ∧
      (RxPinChangeIsr f s lvl curr)._overrun = s._overrun) ∧
    ((s.pool.getD s.head {}).state = .loading →
      ((RxPinChangeIsr f s lvl curr).pool.getD s.head {}).result = .vanRxErrorNBits ∧
      ((RxPinChangeIsr f s lvl curr).pool.getD s.head {}).state = .done ∧
      (RxPinChangeIsr f s lvl curr).head = (s.head + 1) % s.pool.length) := by
  constructor
  · intro hstate
    rw [isr_eq_nbits_searching f s lvl curr hspur hstate hnb]
    refine ⟨rfl, rfl, ?_, ?_, ?_, rfl, rfl, rfl, rfl⟩
    · rw [isr_nbits_searching_getD s lvl curr _ hlen]
    · rw [isr_nbits_searching_getD s lvl curr _ hlen]
      exact hstate
    · rw [isr_nbits_searching_getD s lvl curr _ hlen]
  · intro hstate
    rw [isr_eq_nbits_loading f s lvl curr hspur hstate hnb]
    refine ⟨?_, ?_, ?_⟩
    · rw [isr_nbits_loading_getD s lvl curr _ hlen]
    · rw [isr_nbits_loading_getD s lvl curr _ hlen]
    · rw [isr_nbits_loading_head]

/-- Claim C7, witness: the long-run theorem at a concrete receiver (head
descriptor `SEARCHING`, a 16-bit-time gap between edges). -/
theorem long_run_error_handling_witness :
    (RxPinChangeIsr 1
      ({ atBit := 7, readBits := 5, pool := [{ state := .searching }, {}] } : TVanBus)
      .low 10400).atBit = 0 ∧
    ((RxPinChangeIsr 1
      ({ atBit := 7, readBits := 5, pool := [{ state := .searching }, {}] } : TVanBus)
      .low 10400).pool.getD 0 {}).state = PacketReadState.searching := by
  have h := (long_run_error_handling 1
    { atBit := 7, readBits := 5, pool := [{ state := .searching }, {}] } .low 10400
    (by decide) (by decide) (by decide)).1 (by decide)
  exact ⟨h.1, h.2.2.2.1⟩

/-! ## Claim C8 -/

/-- Claim C8, counterexample.  The claim says that whenever the tail
descriptor is `DONE`, `Receive` "reports and then clears any latched
overrun flag".  In the code that happens only when the caller passes a
non-null `isQueueOverrun` pointer: on a concrete one-slot queue with the
flag latched, a successful `Receive` with a null pointer leaves the flag
set. -/
theorem receive_overrun_ptr_cex :
    (Receive ({ pool := [{ state := .done }], _overrun := true } : TVanBus) {} false
      false).1 = true ∧
    (Receive ({ pool := [{ state := .done }], _overrun := true } : TVanBus) {} false
      false).2.2.2._overrun = true := by
  exact ⟨by decide, by decide⟩

/-- Claim C8 (amended): `Receive` is non-blocking; when the tail descriptor
is not `DONE` it returns false with the queue, the caller's packet and
the caller's flag variable unchanged.  When the tail descriptor is
`DONE`, it copies the descriptor's full contents into the caller's
packet, *and only if the caller passes the overrun query pointer* reports
the latched overrun flag through it and clears the flag; it then resets
the drained slot to `VACANT`, advances the tail (wrapping modulo the pool
capacity), and returns true. -/
theorem receive_queue_behavior (s : TVanBus) (pkt : TVanPacketRxDesc) (uo oo : Bool) :
    (Available s = false → Receive s pkt uo oo = (false, pkt, oo, s)) ∧
    (Available s = true →
      Receive s pkt uo oo =
        (true, s.pool.getD s.tail {},
         if uo then s._overrun else oo,
         { s with
           _overrun := if uo then false else s._overrun,
           pool := s.pool.set s.tail { s.pool.getD s.tail {} with state := .vacant },
           tail := (s.tail + 1) % s.pool.length })) := by
  constructor
  · intro hA
    unfold Receive
    rw [if_neg (by simp [hA])]
  · intro hA
    unfold Receive
    rw [if_pos hA]
    cases uo <;>
      simp [ClearQueueOverrun, descInit, AdvanceTail, IsQueueOverrun, List.length_set]

/-- Claim C8, witness: the `Receive` theorem at a concrete empty queue (no
`DONE` slot at tail) and at a concrete one-slot queue with a completed
frame and a latched overrun flag, drained with the query pointer. -/
theorem receive_queue_behavior_witness :
    Receive ({ pool := [{}] } : TVanBus) {} true true = (false, {}, true, { pool := [{}] }) ∧
    (Receive ({ pool := [{ state := .done }], _overrun := true } : TVanBus) {} true
      false).1 = true ∧
    (Receive ({ pool := [{ state := .done }], _overrun := true } : TVanBus) {} true
      false).2.2.1 = true ∧
    (Receive ({ pool := [{ state := .done }], _overrun := true } : TVanBus) {} true
      false).2.2.2._overrun = false := by
  refine ⟨(receive_queue_behavior { pool := [{}] } {} true true).1 (by decide), ?_, ?_, ?_⟩
  · rw [(receive_queue_behavior _ {} true false).2 (by decide)]
  · rw [(receive_queue_behavior _ {} true false).2 (by decide)]
    rfl
  · rw [(receive_queue_behavior _ {} true false).2 (by decide)]
    rfl

end VanBus
